import Mathlib

/-!
Verification development for the ELT pipeline:
raw-zone cleaning (silver), KPI aggregation (gold), gold-to-store
publication with ingest metadata, and the freshness resolver.

The Python source operates on pandas DataFrames; here each pipeline stage is
embedded shallowly as a Lean function over lists of typed rows.  Missing cells
(pandas `NaN`/`NaT`) are `Option.none`; float amounts are modelled as `ℚ`.
-/

-- Let definitional reduction see through the arithmetic of `ℚ`, so that the
-- embedded pipeline can be evaluated on concrete inputs by `decide`.
unseal Rat.add Rat.mul Rat.sub Rat.inv

namespace Elt

/-! ## Character and string primitives

Models of Python `str.strip()` and `str.lower()` (ASCII range, which is all
the pipeline data uses).
-/

/-- Whitespace test used by `str.strip()` (space, tab, newline, carriage return). -/
def isSpace (c : Char) : Bool :=
  c = ' ' || c = '\t' || c = '\n' || c = '\r'

/-- Strip leading and trailing whitespace from a character list. -/
def stripList (l : List Char) : List Char :=
  ((l.dropWhile isSpace).reverse.dropWhile isSpace).reverse

/-- Model of Python `str.strip()`. -/
def pyStrip (s : String) : String :=
  String.mk (stripList s.data)

/-- Lowercase one ASCII character, as Python `str.lower()` does on ASCII input. -/
def lowerChar (c : Char) : Char :=
  if 65 ≤ c.toNat ∧ c.toNat ≤ 90 then Char.ofNat (c.toNat + 32) else c

/-- Model of Python `str.lower()` (ASCII range). -/
def pyLower (s : String) : String :=
  String.mk (s.data.map lowerChar)

theorem dropWhile_head_false {α : Type} (p : α → Bool) :
    ∀ (l : List α) (a : α), (l.dropWhile p).head? = some a → p a = false := by
  intro l
  induction l with
  | nil => intro a h; simp [List.dropWhile] at h
  | cons x xs ih =>
      intro a h
      by_cases hx : p x
      · rw [List.dropWhile_cons_of_pos hx] at h
        exact ih a h
      · rw [List.dropWhile_cons_of_neg hx] at h
        simp at h
        subst h
        simpa using hx

theorem dropWhile_eq_self_of_head {α : Type} (p : α → Bool) (l : List α)
    (h : ∀ a, l.head? = some a → p a = false) : l.dropWhile p = l := by
  cases l with
  | nil => rfl
  | cons x xs =>
      have hx : p x = false := h x rfl
      simp [List.dropWhile, hx]

theorem dropWhile_idem {α : Type} (p : α → Bool) (l : List α) :
    (l.dropWhile p).dropWhile p = l.dropWhile p := by
  apply dropWhile_eq_self_of_head
  intro a h
  exact dropWhile_head_false p l a h

theorem stripList_idem (l : List Char) : stripList (stripList l) = stripList l := by
  unfold stripList
  set t := l.dropWhile isSpace with ht
  set w := t.reverse.dropWhile isSpace with hw
  -- the inner `dropWhile` leaves `w.reverse` unchanged: `t` extends `w.reverse`
  have hsuf : w <:+ t.reverse := List.dropWhile_suffix isSpace
  obtain ⟨s, hs⟩ := hsuf
  have ht2 : t = w.reverse ++ s.reverse := by
    have h3 := congrArg List.reverse hs
    simp only [List.reverse_append, List.reverse_reverse] at h3
    exact h3.symm
  have h1 : w.reverse.dropWhile isSpace = w.reverse := by
    apply dropWhile_eq_self_of_head
    intro a ha
    have hth : t.head? = some a := by
      rw [ht2]
      cases hwr : w.reverse with
      | nil => rw [hwr] at ha; simp at ha
      | cons b bs =>
          rw [hwr] at ha
          simp only [List.head?_cons, Option.some.injEq] at ha
          simp [ha]
    exact dropWhile_head_false isSpace l a (by rw [← ht]; exact hth)
  rw [h1]
  have h2 : w.reverse.reverse.dropWhile isSpace = w := by
    rw [List.reverse_reverse]
    apply dropWhile_eq_self_of_head
    intro a ha
    exact dropWhile_head_false isSpace t.reverse a (by rw [← hw]; exact ha)
  rw [h2]

theorem pyStrip_idem (s : String) : pyStrip (pyStrip s) = pyStrip s := by
  unfold pyStrip
  simp [stripList_idem]

theorem toNat_lowerChar_of_upper :
    ∀ n < 91, 65 ≤ n → (Char.ofNat (n + 32)).toNat = n + 32 := by decide

theorem lowerChar_idem (c : Char) : lowerChar (lowerChar c) = lowerChar c := by
  unfold lowerChar
  by_cases h : 65 ≤ c.toNat ∧ c.toNat ≤ 90
  · rw [if_pos h]
    have hv : (Char.ofNat (c.toNat + 32)).toNat = c.toNat + 32 :=
      toNat_lowerChar_of_upper c.toNat (by omega) h.1
    rw [if_neg]
    rw [hv]
    omega
  · rw [if_neg h, if_neg h]

theorem isSpace_toNat (c : Char) (h : isSpace c = true) :
    c.toNat = 32 ∨ c.toNat = 9 ∨ c.toNat = 10 ∨ c.toNat = 13 := by
  unfold isSpace at h
  simp only [Bool.or_eq_true, decide_eq_true_eq] at h
  rcases h with ((h | h) | h) | h <;> subst h <;> decide

theorem isSpace_ofNat_lower :
    ∀ n < 91, 65 ≤ n → isSpace (Char.ofNat (n + 32)) = false := by decide

theorem isSpace_lowerChar (c : Char) : isSpace (lowerChar c) = isSpace c := by
  unfold lowerChar
  by_cases h : 65 ≤ c.toNat ∧ c.toNat ≤ 90
  · rw [if_pos h]
    have h1 : isSpace (Char.ofNat (c.toNat + 32)) = false :=
      isSpace_ofNat_lower c.toNat (by omega) h.1
    have h2 : isSpace c = false := by
      cases hSp : isSpace c with
      | false => rfl
      | true =>
          rcases isSpace_toNat c hSp with h3 | h3 | h3 | h3 <;> omega
    rw [h1, h2]
  · rw [if_neg h]

theorem pyLower_idem (s : String) : pyLower (pyLower s) = pyLower s := by
  unfold pyLower
  simp [List.map_map, Function.comp_def, lowerChar_idem]

theorem dropWhile_map_lowerChar (l : List Char) :
    (l.map lowerChar).dropWhile isSpace = (l.dropWhile isSpace).map lowerChar := by
  induction l with
  | nil => rfl
  | cons x xs ih =>
      by_cases hx : isSpace x
      · have hx2 : isSpace (lowerChar x) = true := by rw [isSpace_lowerChar]; exact hx
        simp only [List.map_cons, List.dropWhile_cons_of_pos hx2,
          List.dropWhile_cons_of_pos hx]
        exact ih
      · have hx2 : ¬ isSpace (lowerChar x) = true := by rw [isSpace_lowerChar]; exact hx
        simp only [List.map_cons, List.dropWhile_cons_of_neg hx2,
          List.dropWhile_cons_of_neg hx]

theorem stripList_map_lowerChar (l : List Char) :
    stripList (l.map lowerChar) = (stripList l).map lowerChar := by
  unfold stripList
  rw [dropWhile_map_lowerChar, ← List.map_reverse, dropWhile_map_lowerChar,
    ← List.map_reverse]

theorem pyStrip_pyLower (s : String) : pyStrip (pyLower s) = pyLower (pyStrip s) := by
  unfold pyStrip pyLower
  exact congrArg String.mk (stripList_map_lowerChar s.data)

/-! ## Cell parsers

Models of `pd.to_numeric(..., errors="coerce")` and
`pd.to_datetime(..., errors="coerce")` on the string cells that occur in the
extracts: plain decimal numerals (optional sign, optional fractional part) and
ISO `YYYY-MM-DD` dates.  Anything else coerces to an absent value (`none`),
which is exactly the `errors="coerce"` behaviour.  Exotic accepted inputs
(exponent forms, other date layouts) are outside the modelled data.
-/

/-- Numeric value of a list of decimal digit characters. -/
def digitsToNat (l : List Char) : Nat :=
  l.foldl (fun a c => a * 10 + (c.toNat - 48)) 0

/-- Model of `pd.to_numeric(errors="coerce")` on one string cell. -/
def parseNum (s : String) : Option ℚ :=
  let l := (pyStrip s).data
  let sgn : ℚ := match l with
    | '-' :: _ => -1
    | _ => 1
  let t : List Char := match l with
    | '-' :: r => r
    | '+' :: r => r
    | r => r
  let intPart := t.takeWhile (fun c => c.isDigit)
  let rest := t.dropWhile (fun c => c.isDigit)
  match rest with
  | [] => if t.isEmpty then none else some (sgn * digitsToNat intPart)
  | '.' :: frac =>
      if frac.all (fun c => c.isDigit) ∧ (intPart ≠ [] ∨ frac ≠ []) then
        some (sgn * ((digitsToNat intPart : ℚ) +
          (digitsToNat frac : ℚ) / 10 ^ frac.length))
      else none
  | _ => none

/-- Calendar date (the value `pd.to_datetime` produces for a date-only cell). -/
structure Date where
  year : Nat
  month : Nat
  day : Nat
deriving DecidableEq, Repr

/-- Split a character list on `'-'` separators (the pieces of `"YYYY-MM-DD"`). -/
def splitOnDash : List Char → List (List Char)
  | [] => [[]]
  | c :: r =>
      if c = '-' then [] :: splitOnDash r
      else
        match splitOnDash r with
        | h :: t => (c :: h) :: t
        | [] => [[c]]

/-- Numeric value of a non-empty all-digit piece, `none` otherwise. -/
def digitsOnlyNat (l : List Char) : Option Nat :=
  if l ≠ [] ∧ l.all (fun c => c.isDigit) then some (digitsToNat l) else none

/-- Model of `pd.to_datetime(errors="coerce")` on one `YYYY-MM-DD` string cell. -/
def parseDate (s : String) : Option Date :=
  match splitOnDash (pyStrip s).data with
  | [y, m, d] =>
      match digitsOnlyNat y, digitsOnlyNat m, digitsOnlyNat d with
      | some yn, some mn, some dn =>
          if 1 ≤ mn ∧ mn ≤ 12 ∧ 1 ≤ dn ∧ dn ≤ 31 then some ⟨yn, mn, dn⟩
          else none
      | _, _, _ => none
  | _ => none

/-- Two-digit zero padding, as `str(pandas.Period)` prints month numbers. -/
def pad2 (n : Nat) : String :=
  if n < 10 then "0" ++ toString n else toString n

/-- String form of a month period, `str(ts.to_period("M"))`: `"YYYY-MM"`. -/
def monthKeyOfDate (d : Date) : String :=
  toString d.year ++ "-" ++ pad2 d.month

/-- The `month` column value: `.dt.to_period("M").astype(str)` turns a missing
date (`NaT`) into the literal string `"NaT"`. -/
def monthKey (od : Option Date) : String :=
  match od with
  | some d => monthKeyOfDate d
  | none => "NaT"

/-! ## Duplicate removal

`DataFrame.drop_duplicates()` keeps the first occurrence of each row and
preserves the order of the kept rows.
-/

/-- Helper for `pdDropDuplicates`: `seen` accumulates rows already kept. -/
def pdDropDupAux {α : Type} [DecidableEq α] (seen : List α) : List α → List α
  | [] => []
  | x :: xs => if x ∈ seen then pdDropDupAux seen xs else x :: pdDropDupAux (x :: seen) xs

/-- Model of `DataFrame.drop_duplicates()` (keep first occurrence). -/
def pdDropDuplicates {α : Type} [DecidableEq α] (l : List α) : List α :=
  pdDropDupAux [] l

theorem mem_pdDropDupAux {α : Type} [DecidableEq α] (a : α) :
    ∀ (l : List α) (seen : List α), a ∈ pdDropDupAux seen l ↔ a ∈ l ∧ a ∉ seen := by
  intro l
  induction l with
  | nil => intro seen; simp [pdDropDupAux]
  | cons x xs ih =>
      intro seen
      by_cases hx : x ∈ seen
      · rw [pdDropDupAux, if_pos hx, ih]
        constructor
        · rintro ⟨h1, h2⟩
          exact ⟨List.mem_cons_of_mem x h1, h2⟩
        · rintro ⟨h1, h2⟩
          rcases List.mem_cons.mp h1 with h3 | h3
          · subst h3; exact absurd hx h2
          · exact ⟨h3, h2⟩
      · rw [pdDropDupAux, if_neg hx]
        constructor
        · intro h
          rcases List.mem_cons.mp h with h3 | h3
          · subst h3; exact ⟨List.mem_cons_self a xs, hx⟩
          · rw [ih] at h3
            refine ⟨List.mem_cons_of_mem x h3.1, ?_⟩
            intro hc
            exact h3.2 (List.mem_cons_of_mem x hc)
        · rintro ⟨h1, h2⟩
          rcases List.mem_cons.mp h1 with h3 | h3
          · subst h3; exact List.mem_cons_self a _
          · by_cases hax : a = x
            · subst hax; exact List.mem_cons_self a _
            · refine List.mem_cons_of_mem x ?_
              rw [ih]
              exact ⟨h3, by simp [hax, h2]⟩

theorem mem_pdDropDuplicates {α : Type} [DecidableEq α] (a : α) (l : List α) :
    a ∈ pdDropDuplicates l ↔ a ∈ l := by
  unfold pdDropDuplicates
  rw [mem_pdDropDupAux]
  simp

theorem nodup_pdDropDupAux {α : Type} [DecidableEq α] :
    ∀ (l : List α) (seen : List α), (pdDropDupAux seen l).Nodup := by
  intro l
  induction l with
  | nil => intro seen; simp [pdDropDupAux]
  | cons x xs ih =>
      intro seen
      by_cases hx : x ∈ seen
      · rw [pdDropDupAux, if_pos hx]; exact ih seen
      · rw [pdDropDupAux, if_neg hx]
        refine List.nodup_cons.mpr ⟨?_, ih (x :: seen)⟩
        intro hc
        rw [mem_pdDropDupAux] at hc
        exact hc.2 (List.mem_cons_self x seen)

theorem nodup_pdDropDuplicates {α : Type} [DecidableEq α] (l : List α) :
    (pdDropDuplicates l).Nodup :=
  nodup_pdDropDupAux l []

theorem pdDropDupAux_eq_self {α : Type} [DecidableEq α] :
    ∀ (l : List α) (seen : List α), l.Nodup → (∀ a ∈ l, a ∉ seen) →
      pdDropDupAux seen l = l := by
  intro l
  induction l with
  | nil => intro seen _ _; rfl
  | cons x xs ih =>
      intro seen hnd hdis
      have hx : x ∉ seen := hdis x (List.mem_cons_self x xs)
      rw [pdDropDupAux, if_neg hx]
      congr 1
      refine ih (x :: seen) (List.nodup_cons.mp hnd).2 ?_
      intro a ha
      rw [List.mem_cons]
      push_neg
      constructor
      · intro he
        subst he
        exact (List.nodup_cons.mp hnd).1 ha
      · exact hdis a (List.mem_cons_of_mem x ha)

theorem pdDropDuplicates_eq_self {α : Type} [DecidableEq α] (l : List α)
    (h : l.Nodup) : pdDropDuplicates l = l :=
  pdDropDupAux_eq_self l [] h (by simp)

/-! ## Silver stage: `transform_dataframe` (flows/silver_transformation.py)

The generic pandas function is embedded once per entity schema (the two raw
extracts of the pipeline, `clients.csv` and `achats.csv`), since its column
loops dispatch on column names and dtypes.  A raw cell is `Option String`
(`none` = empty cell, i.e. pandas `NaN` after `read_csv`); column headers are
assumed already in canonical form (the header `strip` makes them so).

Per-column effect of `transform_dataframe` on these schemas:
- `date`-named columns (`date_achat`, `date_inscription`): `pd.to_datetime(errors="coerce")`;
- object columns named `montant`/`id_achat`/`id_client`: `pd.to_numeric(errors="coerce")`;
- object columns whose name contains `email`/`nom`/`produit`/`pays`:
  `astype(str)` (turning a missing cell into the literal `"nan"`), `.str.strip()`,
  and additionally `.str.lower()` for `email`.
Row-level steps, in source order: `dropna(how="all")`, the column coercions,
`drop_duplicates()`, then the filters keeping rows whose `id_client`
(and, when the column exists, `id_achat`) is not null.
-/

/-- Raw purchase row of `achats.csv` (columns `id_achat, id_client, date_achat, montant, produit`). -/
structure RawPurchase where
  id_achat : Option String
  id_client : Option String
  date_achat : Option String
  montant : Option String
  produit : Option String
deriving DecidableEq, Repr

/-- Cleaned purchase row, after the column coercions of `transform_dataframe`. -/
structure CleanPurchase where
  id_achat : Option ℚ
  id_client : Option ℚ
  date_achat : Option Date
  montant : Option ℚ
  produit : String
deriving DecidableEq, Repr

/-- Raw client row of `clients.csv` (columns `id_client, nom, email, date_inscription, pays`). -/
structure RawClient where
  id_client : Option String
  nom : Option String
  email : Option String
  date_inscription : Option String
  pays : Option String
deriving DecidableEq, Repr

/-- Cleaned client row, after the column coercions of `transform_dataframe`. -/
structure CleanClient where
  id_client : Option ℚ
  nom : String
  email : String
  date_inscription : Option Date
  pays : String
deriving DecidableEq, Repr

/-- Effect of `pd.to_numeric(errors="coerce")` on a cell: missing stays missing,
unparsable becomes missing. -/
def toNumericCell (c : Option String) : Option ℚ :=
  c.bind parseNum

/-- Effect of `pd.to_datetime(errors="coerce")` on a cell. -/
def toDatetimeCell (c : Option String) : Option Date :=
  c.bind parseDate

/-- Effect of `astype(str)` followed by `.str.strip()`: a missing cell becomes the
literal string `"nan"`. -/
def strCell (c : Option String) : String :=
  match c with
  | some s => pyStrip s
  | none => "nan"

/-- Effect of `astype(str)`, `.str.strip()`, then `.str.lower()` (email columns). -/
def emailCell (c : Option String) : String :=
  pyLower (strCell c)

/-- The `dropna(how="all")` test for a raw purchase row. -/
def RawPurchase.allNa (r : RawPurchase) : Bool :=
  r.id_achat.isNone && r.id_client.isNone && r.date_achat.isNone &&
    r.montant.isNone && r.produit.isNone

/-- The `dropna(how="all")` test for a raw client row. -/
def RawClient.allNa (r : RawClient) : Bool :=
  r.id_client.isNone && r.nom.isNone && r.email.isNone &&
    r.date_inscription.isNone && r.pays.isNone

/-- The column coercions of `transform_dataframe` applied to a purchase row. -/
def coercePurchase (r : RawPurchase) : CleanPurchase :=
  { id_achat := toNumericCell r.id_achat
    id_client := toNumericCell r.id_client
    date_achat := toDatetimeCell r.date_achat
    montant := toNumericCell r.montant
    produit := strCell r.produit }

/-- The column coercions of `transform_dataframe` applied to a client row. -/
def coerceClient (r : RawClient) : CleanClient :=
  { id_client := toNumericCell r.id_client
    nom := strCell r.nom
    email := emailCell r.email
    date_inscription := toDatetimeCell r.date_inscription
    pays := strCell r.pays }

/-- Model of `transform_dataframe` on the purchase extract: drop all-empty rows, coerce
columns, drop exact duplicates, then keep only rows with non-null `id_client`
and non-null `id_achat` (the two filters of the final pass, in source order). -/
def transform_dataframe_purchases (rows : List RawPurchase) : List CleanPurchase :=
  let kept := rows.filter (fun r => ! r.allNa)
  let coerced := kept.map coercePurchase
  let deduped := pdDropDuplicates coerced
  (deduped.filter (fun r => r.id_client.isSome)).filter (fun r => r.id_achat.isSome)

/-- Model of `transform_dataframe` on the client extract: drop all-empty rows, coerce
columns, drop exact duplicates, then keep only rows with non-null `id_client`
(there is no `id_achat` column, so that filter does not apply). -/
def transform_dataframe_clients (rows : List RawClient) : List CleanClient :=
  let kept := rows.filter (fun r => ! r.allNa)
  let coerced := kept.map coerceClient
  let deduped := pdDropDuplicates coerced
  deduped.filter (fun r => r.id_client.isSome)

/-! ### Second application of `transform_dataframe` (for idempotence)

Running the same source function on its own output acts on a frame whose
dtypes are already converted: the `date` column is `datetime64` (so
`pd.to_datetime` is the identity on it), the `montant`/id columns are numeric
(so the object-dtype `to_numeric` loop skips them), and the keyword string
columns are object strings, so they get `astype(str)` (identity on strings),
`.str.strip()`, and `.str.lower()` for email again.  `dropna(how="all")` never
drops a coerced row because the keyword string cells are genuine strings
(possibly `"nan"`), which pandas counts as non-null; the corresponding
conjunct below is therefore `false`.
-/

/-- The `dropna(how="all")` test on an already-cleaned purchase row: the `produit`
cell is a string, hence non-null, so the row is never all-null. -/
def CleanPurchase.allNa (r : CleanPurchase) : Bool :=
  r.id_achat.isNone && r.id_client.isNone && r.date_achat.isNone &&
    r.montant.isNone && false

/-- The `dropna(how="all")` test on an already-cleaned client row: `nom`, `email`
and `pays` are strings, hence non-null. -/
def CleanClient.allNa (r : CleanClient) : Bool :=
  r.id_client.isNone && false && false && r.date_inscription.isNone && false

/-- Column coercions of a second `transform_dataframe` run on a cleaned
purchase row: only the object column `produit` is touched (strip again). -/
def recoercePurchase (r : CleanPurchase) : CleanPurchase :=
  { r with produit := pyStrip r.produit }

/-- Column coercions of a second `transform_dataframe` run on a cleaned client
row: the object columns `nom`, `email`, `pays` are stripped, `email` lowered. -/
def recoerceClient (r : CleanClient) : CleanClient :=
  { r with
    nom := pyStrip r.nom
    email := pyLower (pyStrip r.email)
    pays := pyStrip r.pays }

/-- Model of `transform_dataframe` applied to an already-cleaned purchase table. -/
def transform_dataframe_purchases_again (rows : List CleanPurchase) : List CleanPurchase :=
  let kept := rows.filter (fun r => ! r.allNa)
  let coerced := kept.map recoercePurchase
  let deduped := pdDropDuplicates coerced
  (deduped.filter (fun r => r.id_client.isSome)).filter (fun r => r.id_achat.isSome)

/-- Model of `transform_dataframe` applied to an already-cleaned client table. -/
def transform_dataframe_clients_again (rows : List CleanClient) : List CleanClient :=
  let kept := rows.filter (fun r => ! r.allNa)
  let coerced := kept.map recoerceClient
  let deduped := pdDropDuplicates coerced
  deduped.filter (fun r => r.id_client.isSome)

/-! ### Column-dtype-aware cleaning

The keyword string loop of `transform_dataframe` (lines 29-33) iterates only
over `df.select_dtypes(include=["object"]).columns`.  Whether a keyword column
is object dtype is decided by `read_csv` from the whole column: a column is
object exactly when some present cell fails numeric parsing; a column that is
entirely empty is `float64` (all `NaN`), and an all-numeric column is
`int64`/`float64`.  A non-object keyword column therefore never receives
`astype(str)`/`.str.strip()`/`.str.lower()`, and its missing cells stay `NaN`
in the cleaned output.  The definitions below carry that guard; the keyword
fields become `Option String`, with `none` for a cell that is still missing
after cleaning, and a non-object column passing its cells through unchanged.

Two modelling notes.  The `to_numeric` loop (lines 23-26) carries the same
object-dtype guard, but it is immaterial: coercing an already-numeric column
is the identity, so `toNumericCell` stays unconditional.  `read_csv` can also
infer a `bool` column from pure `True`/`False` literals, which this model
classifies as object; but a bool-literal column containing any missing cell is
object dtype in pandas as well (`NaN` cannot inhabit `bool`), so the two
readings agree on every column that has a missing cell — the only cells this
claim constrains.
-/

/-- Dtype inference for one raw column: object iff some present cell does not
parse as a numeral. -/
def isObjectCol (col : List (Option String)) : Bool :=
  col.any (fun c =>
    match c with
    | some s => (parseNum s).isNone
    | none => false)

/-- The keyword-column string treatment, guarded by the column's object
dtype: an object column gets `astype(str).str.strip()` (missing becomes
`"nan"`), a non-object column is left untouched. -/
def strCellD (isObj : Bool) (c : Option String) : Option String :=
  if isObj then some (strCell c) else c

/-- The email-column treatment, guarded by object dtype: strip then lower on
an object column, untouched otherwise. -/
def emailCellD (isObj : Bool) (c : Option String) : Option String :=
  if isObj then some (emailCell c) else c

/-- Cleaned client row under dtype-aware cleaning: keyword string cells can
remain absent when their column was not object dtype. -/
structure CleanClientD where
  id_client : Option ℚ
  nom : Option String
  email : Option String
  date_inscription : Option Date
  pays : Option String
deriving DecidableEq, Repr

/-- Cleaned purchase row under dtype-aware cleaning. -/
structure CleanPurchaseD where
  id_achat : Option ℚ
  id_client : Option ℚ
  date_achat : Option Date
  montant : Option ℚ
  produit : Option String
deriving DecidableEq, Repr

/-- Column coercions of `transform_dataframe` on a client row, with the
object-dtype flag of each keyword column supplied. -/
def coerceClientD (oNom oEmail oPays : Bool) (r : RawClient) : CleanClientD :=
  { id_client := toNumericCell r.id_client
    nom := strCellD oNom r.nom
    email := emailCellD oEmail r.email
    date_inscription := toDatetimeCell r.date_inscription
    pays := strCellD oPays r.pays }

/-- Column coercions of `transform_dataframe` on a purchase row, with the
object-dtype flag of the `produit` column supplied. -/
def coercePurchaseD (oProduit : Bool) (r : RawPurchase) : CleanPurchaseD :=
  { id_achat := toNumericCell r.id_achat
    id_client := toNumericCell r.id_client
    date_achat := toDatetimeCell r.date_achat
    montant := toNumericCell r.montant
    produit := strCellD oProduit r.produit }

/-- Dtype-aware `transform_dataframe` on the client extract: the flags are
inferred from the raw columns exactly as `read_csv` fixes the dtypes. -/
def transform_dataframe_clients_dtyped (rows : List RawClient) : List CleanClientD :=
  let oNom := isObjectCol (rows.map (fun r => r.nom))
  let oEmail := isObjectCol (rows.map (fun r => r.email))
  let oPays := isObjectCol (rows.map (fun r => r.pays))
  let kept := rows.filter (fun r => ! r.allNa)
  let coerced := kept.map (coerceClientD oNom oEmail oPays)
  let deduped := pdDropDuplicates coerced
  deduped.filter (fun r => r.id_client.isSome)

/-- Dtype-aware `transform_dataframe` on the purchase extract. -/
def transform_dataframe_purchases_dtyped (rows : List RawPurchase) : List CleanPurchaseD :=
  let oProduit := isObjectCol (rows.map (fun r => r.produit))
  let kept := rows.filter (fun r => ! r.allNa)
  let coerced := kept.map (coercePurchaseD oProduit)
  let deduped := pdDropDuplicates coerced
  (deduped.filter (fun r => r.id_client.isSome)).filter (fun r => r.id_achat.isSome)

/-- View of an object-dtype cleaned client row inside the dtype-aware type:
every keyword string cell is present. -/
def embedClient (c : CleanClient) : CleanClientD :=
  { id_client := c.id_client
    nom := some c.nom
    email := some c.email
    date_inscription := c.date_inscription
    pays := some c.pays }

/-- View of an object-dtype cleaned purchase row inside the dtype-aware type. -/
def embedPurchase (c : CleanPurchase) : CleanPurchaseD :=
  { id_achat := c.id_achat
    id_client := c.id_client
    date_achat := c.date_achat
    montant := c.montant
    produit := some c.produit }

/-! ## Gold stage: `compute_kpis` (flows/gold_aggregation.py)

`compute_kpis` adds `day`/`month` period columns to the purchases, left-merges
the clients on `id_client`, and produces four grouped tables.  pandas facts the
embedding reproduces:
- `.dt.date` of `NaT` is `NaT` (so `day` is `Option Date`), while
  `.dt.to_period("M").astype(str)` of `NaT` is the string `"NaT"`;
- `merge(..., how="left")` emits one output row per (purchase, matching
  client) pair, and a single row with null client fields when no client
  matches; null join keys match nothing;
- `groupby(k)` with default `dropna=True` drops rows whose key is null, and
  lists the group keys in ascending order;
- `groupby(k)[c].sum()` skips null cells (an all-null group sums to `0.0`);
- `Series.pct_change()` is the fractional change `(curr - prev)/prev`
  (equivalently `curr/prev - 1`), `NaN` for the first row; `.fillna(0)`
  replaces the `NaN`s (first row, and `0/0` groups) with `0`, while a
  division of a non-zero value by zero yields an infinite float, modelled
  here as `none`.
Only the joined columns the groupbys consume (`month`, `day`, `montant`,
`pays`) are carried in `JoinedRow`.
-/

/-- The `month` column of the purchases frame. -/
def monthOf (a : CleanPurchase) : String :=
  monthKey a.date_achat

/-- One row of the left-merged frame, restricted to the columns the KPI
groupbys read.  `pays` is `none` for a purchase without a matching client. -/
structure JoinedRow where
  month : String
  day : Option Date
  montant : Option ℚ
  pays : Option String
deriving DecidableEq, Repr

/-- Clients matching one purchase under `merge(on="id_client")`: equality of
non-null keys only (a null key matches nothing). -/
def matchClients (clients : List CleanClient) (a : CleanPurchase) : List CleanClient :=
  clients.filter (fun c =>
    match a.id_client with
    | some v => c.id_client = some v
    | none => False)

/-- The left-merge output rows produced by one purchase row. -/
def joinOne (clients : List CleanClient) (a : CleanPurchase) : List JoinedRow :=
  match matchClients clients a with
  | [] => [⟨monthOf a, a.date_achat, a.montant, none⟩]
  | ms => ms.map (fun c => ⟨monthOf a, a.date_achat, a.montant, some c.pays⟩)

/-- Model of `achats.merge(clients, on="id_client", how="left")`. -/
def leftJoin (clients : List CleanClient) (achats : List CleanPurchase) : List JoinedRow :=
  achats.flatMap (joinOne clients)

/-- Lexicographic comparison of character lists by code point, the string
order Python and pandas use for sorting and group keys. -/
def charListLe : List Char → List Char → Bool
  | [], _ => true
  | _ :: _, [] => false
  | a :: as, b :: bs =>
      if a.toNat < b.toNat then true
      else if b.toNat < a.toNat then false
      else charListLe as bs

/-- String comparison by code points (Python string `<=`). -/
def strLe (a b : String) : Bool :=
  charListLe a.data b.data

/-- Distinct group keys in ascending order, as `groupby` lists them. -/
def sortKeys (l : List String) : List String :=
  List.insertionSort (fun a b => strLe a b = true) (pdDropDuplicates l)

/-- Numeric code of a date, for ordering day keys chronologically. -/
def Date.code (d : Date) : Nat :=
  d.year * 10000 + d.month * 100 + d.day

/-- Distinct day keys in ascending order. -/
def sortDayKeys (l : List Date) : List Date :=
  List.insertionSort (fun a b => a.code ≤ b.code) (pdDropDuplicates l)

/-- Group size for one month key: `achats.groupby("month").size()`. -/
def countMonth (achats : List CleanPurchase) (m : String) : Nat :=
  (achats.filter (fun a => monthOf a = m)).length

/-- The `volumes_day` group size for one day: `achats.groupby("day").size()`. -/
def countDay (achats : List CleanPurchase) (d : Date) : Nat :=
  (achats.filter (fun a => a.date_achat = some d)).length

/-- The `volumes_month` table: month key and row count per month.  The
`"NaT"` month string is an ordinary (non-null) key, so purchases without a
date are counted under it. -/
def volumesMonthTable (achats : List CleanPurchase) : List (String × Nat) :=
  (sortKeys (achats.map monthOf)).map (fun m => (m, countMonth achats m))

/-- The `volumes_day` table: `groupby("day")` drops the rows whose `day` is
`NaT` (null group key). -/
def volumesDayTable (achats : List CleanPurchase) : List (Date × Nat) :=
  (sortDayKeys (achats.filterMap (fun a => a.date_achat))).map
    (fun d => (d, countDay achats d))

/-- Null-skipping column sum of `montant` over a list of joined rows
(`groupby(...)["montant"].sum()` semantics on one group). -/
def sumMontant (rows : List JoinedRow) : ℚ :=
  (rows.map (fun r => r.montant.getD 0)).sum

/-- Revenue attributed to one country key. -/
def caOfCountry (j : List JoinedRow) (p : String) : ℚ :=
  sumMontant (j.filter (fun r => r.pays = some p))

/-- Country group keys: `groupby("pays")` drops the null (`NaN`) country
group, i.e. every purchase without a matching client. -/
def countryKeys (j : List JoinedRow) : List String :=
  sortKeys (j.filterMap (fun r => r.pays))

/-- The `ca_by_country` table. -/
def caByCountryTable (j : List JoinedRow) : List (String × ℚ) :=
  (countryKeys j).map (fun p => (p, caOfCountry j p))

/-- Revenue summed over one month group of the joined frame. -/
def revenueOfMonth (j : List JoinedRow) (m : String) : ℚ :=
  sumMontant (j.filter (fun r => r.month = m))

/-- One row of the `monthly_revenue` table.  `pct_change = none` encodes the
infinite float produced by a division of a non-zero value by zero (the only
non-finite case `.fillna(0)` does not patch). -/
structure MRRow where
  month : String
  revenue : ℚ
  pct_change : Option ℚ
deriving DecidableEq, Repr

/-- Value of `Series.pct_change()` between two consecutive revenues, after `.fillna(0)`:
`(curr - prev)/prev`, with `0/0` (a `NaN`) filled to `0` and `x/0` for
`x ≠ 0` an infinite float (`none`). -/
def pctChange (prev curr : ℚ) : Option ℚ :=
  if prev = 0 then (if curr = 0 then some 0 else none)
  else some ((curr - prev) / prev)

/-- The `pct_change` cell given the optional previous revenue: the first row has
no predecessor, its `NaN` is filled to `0`. -/
def pctCell (prev : Option ℚ) (curr : ℚ) : Option ℚ :=
  match prev with
  | none => some 0
  | some p => pctChange p curr

/-- Attach the `pct_change` column to the (month, revenue) rows, pairing each
row with its predecessor's revenue. -/
def addPct (rows : List (String × ℚ)) : List MRRow :=
  (rows.zip (none :: rows.map (fun r => some r.2))).map
    (fun p => ⟨p.1.1, p.1.2, pctCell p.2 p.1.2⟩)

/-- The `monthly_revenue` table: group the joined frame by month, sum
`montant`, sort by the month string ascending, then compute `pct_change` and
fill the leading `NaN` with `0`. -/
def monthlyRevenueTable (j : List JoinedRow) : List MRRow :=
  addPct ((sortKeys (j.map (fun r => r.month))).map (fun m => (m, revenueOfMonth j m)))

/-- The four KPI tables returned by `compute_kpis`. -/
structure Kpis where
  volumes_day : List (Date × Nat)
  volumes_month : List (String × Nat)
  ca_by_country : List (String × ℚ)
  monthly_revenue : List MRRow
deriving DecidableEq, Repr

/-- Model of `compute_kpis(clients, achats)`. -/
def compute_kpis (clients : List CleanClient) (achats : List CleanPurchase) : Kpis :=
  let j := leftJoin clients achats
  { volumes_day := volumesDayTable achats
    volumes_month := volumesMonthTable achats
    ca_by_country := caByCountryTable j
    monthly_revenue := monthlyRevenueTable j }

/-! ## Publication stage: `write_df_to_mongo` (flows/gold_to_mongo.py)

The MongoDB database is modelled as a map from collection name to its
published rows plus the `ingest_metadata` collection as a list of metadata
documents.  `write_df_to_mongo` does `delete_many({})` followed by
`insert_many(records)` when the frame is non-empty, `delete_many({})` alone
when it is empty, and then upserts one metadata document keyed by
`collection` via `update_one({"collection": name}, {"$set": meta}, upsert=True)`
(replace the first matching document, or append when none matches).
`ingest_time` is `datetime.now(timezone.utc).isoformat()` at write time,
passed here as the explicit `now` argument; `last_modified` is the
caller-supplied source timestamp. -/

/-- A published row (BSON document), uninterpreted by the write path. -/
abbrev Doc := List (String × String)

/-- One `ingest_metadata` document. -/
structure MetaDoc where
  collection : String
  ingest_time : Option String
  source_last_modified : Option String
deriving DecidableEq, Repr

/-- The modelled MongoDB state. -/
structure Store where
  colls : String → List Doc
  ingest_metadata : List MetaDoc

/-- Model of the metadata upsert (replace via update with upsert): replace the first
document whose `collection` field matches, or append `doc` if none does. -/
def updateOneUpsert (meta : List MetaDoc) (name : String) (doc : MetaDoc) : List MetaDoc :=
  match meta with
  | [] => [doc]
  | m :: rest =>
      if m.collection = name then doc :: rest
      else m :: updateOneUpsert rest name doc

/-- Model of `write_df_to_mongo(df, collection_name, metadata)`: full replace of the
collection's rows, then metadata upsert. -/
def write_df_to_mongo (df : List Doc) (collection_name : String)
    (last_modified : Option String) (now : String) (st : Store) : Store :=
  { colls := fun n =>
      if n = collection_name then (if df.isEmpty then [] else df) else st.colls n
    ingest_metadata :=
      updateOneUpsert st.ingest_metadata collection_name
        ⟨collection_name, some now, last_modified⟩ }

/-! ## Freshness resolver: `get_metadata` (app/api.py)

`datetime` values are modelled with calendar fields, a rational seconds field
(covering fractional seconds), and an optional timezone offset in minutes
(`none` = naive).  `fromisoformat` models `datetime.fromisoformat` (Python ≥
3.11, which accepts the `Z` suffix) on the layouts the pipeline produces:
`YYYY-MM-DD[​{T or space}HH:MM[:SS[.digits]]][Z or ±HH:MM]`; anything else
returns `none`, which the resolver treats exactly like a missing timestamp.
Metadata fields are modelled as optional strings (the string/None branches of
the resolver's `_to_dt`). -/

/-- A parsed Python `datetime`: timezone offset in minutes, `none` = naive. -/
structure PyDateTime where
  year : Nat
  month : Nat
  day : Nat
  hour : Nat
  minute : Nat
  second : ℚ
  tzMinutes : Option Int
deriving DecidableEq, Repr

/-- Read exactly two digit characters. -/
def digit2 : List Char → Option (Nat × List Char)
  | a :: b :: r =>
      if a.isDigit && b.isDigit then
        some ((a.toNat - 48) * 10 + (b.toNat - 48), r)
      else none
  | _ => none

/-- Read exactly four digit characters. -/
def digit4 (l : List Char) : Option (Nat × List Char) :=
  match digit2 l with
  | some (hi, r) =>
      match digit2 r with
      | some (lo, r2) => some (hi * 100 + lo, r2)
      | none => none
  | none => none

/-- Expect one specific character. -/
def expectChar (c : Char) : List Char → Option (List Char)
  | x :: r => if x = c then some r else none
  | _ => none

/-- Optional `:SS[.digits]` seconds component. -/
def parseSeconds : List Char → Option (ℚ × List Char)
  | ':' :: r =>
      match digit2 r with
      | none => none
      | some (ss, l) =>
          if 60 ≤ ss then none
          else
            match l with
            | '.' :: r2 =>
                let frac := r2.takeWhile (fun c => c.isDigit)
                let rest := r2.dropWhile (fun c => c.isDigit)
                if frac = [] then none
                else some ((ss : ℚ) + (digitsToNat frac : ℚ) / 10 ^ frac.length, rest)
            | _ => some ((ss : ℚ), l)
  | l => some (0, l)

/-- Trailing timezone designator: empty (naive), `Z`, or `±HH:MM`. -/
def parseTz : List Char → Option (Option Int)
  | [] => some none
  | ['Z'] => some (some 0)
  | c :: rest =>
      if c = '+' ∨ c = '-' then
        match digit2 rest with
        | none => none
        | some (oh, l) =>
            match expectChar ':' l with
            | none => none
            | some l2 =>
                match digit2 l2 with
                | none => none
                | some (om, l3) =>
                    if l3 = [] ∧ oh ≤ 23 ∧ om ≤ 59 then
                      some (some (if c = '-' then -(60 * oh + om : Int) else (60 * oh + om : Int)))
                    else none
      else none

/-- Model of `datetime.fromisoformat` on the layouts described above. -/
def fromisoformat (s : String) : Option PyDateTime := do
  let (y, l) ← digit4 s.data
  let l ← expectChar '-' l
  let (mo, l) ← digit2 l
  let l ← expectChar '-' l
  let (d, l) ← digit2 l
  if ¬ (1 ≤ mo ∧ mo ≤ 12 ∧ 1 ≤ d ∧ d ≤ 31) then none
  else
    match l with
    | [] => some ⟨y, mo, d, 0, 0, 0, none⟩
    | sep :: rest =>
        if ¬ (sep = 'T' ∨ sep = ' ') then none
        else do
          let (h, l) ← digit2 rest
          let l ← expectChar ':' l
          let (mi, l) ← digit2 l
          if ¬ (h ≤ 23 ∧ mi ≤ 59) then none
          else do
            let (sec, l) ← parseSeconds l
            let tz ← parseTz l
            some ⟨y, mo, d, h, mi, sec, tz⟩

/-- Day number of a civil date (days since 1970-01-01, Gregorian). -/
def daysFromCivil (y m d : Nat) : Int :=
  let yy : Int := (y : Int) - (if m ≤ 2 then 1 else 0)
  let era : Int := yy / 400
  let yoe : Int := yy - era * 400
  let mp : Int := ((m : Int) + 9) % 12
  let doy : Int := (153 * mp + 2) / 5 + (d : Int) - 1
  let doe : Int := yoe * 365 + yoe / 4 - yoe / 100 + doy
  era * 146097 + doe - 719468

/-- Absolute UTC timestamp in seconds; a naive datetime (offset `none`) is
read as UTC, which is exactly the resolver's normalization rule. -/
def utcSeconds (t : PyDateTime) : ℚ :=
  86400 * (daysFromCivil t.year t.month t.day : ℚ) + 3600 * (t.hour : ℚ) +
    60 * (t.minute : ℚ) + t.second - 60 * ((t.tzMinutes.getD 0 : Int) : ℚ)

/-- Effect of `replace(tzinfo=timezone.utc)`, applied when the datetime is naive. -/
def normalizeNaive (t : PyDateTime) : PyDateTime :=
  match t.tzMinutes with
  | none => { t with tzMinutes := some 0 }
  | some _ => t

/-- The response body of `/metadata/{collection}` (`RefreshInfo`). -/
structure RefreshInfo where
  collection : String
  source_last_modified : Option String
  ingest_time : Option String
  delta_source_to_ingest_seconds : Option ℚ
  delta_ingest_to_now_seconds : Option ℚ
deriving DecidableEq, Repr

/-- Structured API failure: `HTTPException(status_code=404)`. -/
inductive ApiError where
  | notFound
deriving DecidableEq, Repr

/-- Model of `find_one` by collection name on `ingest_metadata`. -/
def findOneMeta (meta : List MetaDoc) (name : String) : Option MetaDoc :=
  meta.find? (fun m => m.collection = name)

/-- The `/metadata/{collection}` resolver: 404 when no metadata document
exists; otherwise parse the two timestamps (unparsable or missing → `none`),
normalize naive ones to UTC, and fill the two deltas only when their operands
are available. -/
def get_metadata (meta : List MetaDoc) (collection : String) (now : PyDateTime) :
    Except ApiError RefreshInfo :=
  match findOneMeta meta collection with
  | none => .error .notFound
  | some m =>
      let src_dt := (m.source_last_modified.bind fromisoformat).map normalizeNaive
      let ing_dt := (m.ingest_time.bind fromisoformat).map normalizeNaive
      let dsi : Option ℚ :=
        match src_dt, ing_dt with
        | some s, some i => some (utcSeconds i - utcSeconds s)
        | _, _ => none
      let din : Option ℚ :=
        match ing_dt with
        | some i => some (utcSeconds now - utcSeconds i)
        | none => none
      .ok ⟨collection, m.source_last_modified, m.ingest_time, dsi, din⟩

/-! ## Supporting lemmas -/

theorem mem_transform_purchases {r : CleanPurchase} {rows : List RawPurchase}
    (h : r ∈ transform_dataframe_purchases rows) :
    ∃ x ∈ rows, r = coercePurchase x := by
  unfold transform_dataframe_purchases at h
  have h1 := (List.mem_filter.mp h).1
  have h2 := (List.mem_filter.mp h1).1
  rw [mem_pdDropDuplicates] at h2
  obtain ⟨x, hx, he⟩ := List.mem_map.mp h2
  exact ⟨x, (List.mem_filter.mp hx).1, he.symm⟩

theorem mem_transform_clients {c : CleanClient} {rows : List RawClient}
    (h : c ∈ transform_dataframe_clients rows) :
    ∃ x ∈ rows, c = coerceClient x := by
  unfold transform_dataframe_clients at h
  have h1 := (List.mem_filter.mp h).1
  rw [mem_pdDropDuplicates] at h1
  obtain ⟨x, hx, he⟩ := List.mem_map.mp h1
  exact ⟨x, (List.mem_filter.mp hx).1, he.symm⟩

theorem pyStrip_strCell (c : Option String) : pyStrip (strCell c) = strCell c := by
  cases c with
  | some s => exact pyStrip_idem s
  | none => decide

theorem pyLower_strCell_fix (c : Option String) :
    pyLower (pyStrip (emailCell c)) = emailCell c := by
  unfold emailCell
  rw [pyStrip_pyLower, pyStrip_strCell, pyLower_idem]

theorem recoercePurchase_coerce (x : RawPurchase) :
    recoercePurchase (coercePurchase x) = coercePurchase x := by
  unfold recoercePurchase coercePurchase
  simp [pyStrip_strCell]

theorem recoerceClient_coerce (x : RawClient) :
    recoerceClient (coerceClient x) = coerceClient x := by
  unfold recoerceClient coerceClient emailCell
  simp only [pyStrip_strCell]
  rw [pyStrip_pyLower, pyStrip_strCell, pyLower_idem]

theorem nodup_transform_purchases (rows : List RawPurchase) :
    (transform_dataframe_purchases rows).Nodup := by
  unfold transform_dataframe_purchases
  exact ((nodup_pdDropDuplicates _).filter _).filter _

theorem nodup_transform_clients (rows : List RawClient) :
    (transform_dataframe_clients rows).Nodup := by
  unfold transform_dataframe_clients
  exact (nodup_pdDropDuplicates _).filter _

/-! ## Claims -/

/-- C5: for every table name with no IngestMetadata record the freshness
resolver fails with a structured NotFound, and for every name with a metadata
record it returns a result, never NotFound. -/
theorem C5_freshness_not_found (meta : List MetaDoc) (name : String) (now : PyDateTime) :
    ((∀ m ∈ meta, m.collection ≠ name) →
      get_metadata meta name now = .error .notFound) ∧
    (∀ m, findOneMeta meta name = some m →
      ∃ info, get_metadata meta name now = .ok info) := by
  constructor
  · intro h
    have hf : findOneMeta meta name = none := by
      unfold findOneMeta
      rw [List.find?_eq_none]
      intro m hm
      simpa using h m hm
    unfold get_metadata
    rw [hf]
  · intro m hm
    unfold get_metadata
    rw [hm]
    exact ⟨_, rfl⟩

/-- C5 witness: at concrete inputs, an absent record yields NotFound and a
present record yields a successful result. -/
theorem C5_freshness_not_found_witness :
    get_metadata [] "volumes_day" ⟨2024, 1, 1, 0, 0, 0, some 0⟩ = .error .notFound ∧
    ∃ info, get_metadata [⟨"volumes_day", some "2024-01-01T00:10:00Z", none⟩]
      "volumes_day" ⟨2024, 1, 1, 0, 0, 0, some 0⟩ = .ok info := by
  constructor
  · exact (C5_freshness_not_found [] "volumes_day" ⟨2024, 1, 1, 0, 0, 0, some 0⟩).1
      (by intro m hm; simp at hm)
  · exact (C5_freshness_not_found [⟨"volumes_day", some "2024-01-01T00:10:00Z", none⟩]
      "volumes_day" ⟨2024, 1, 1, 0, 0, 0, some 0⟩).2
      ⟨"volumes_day", some "2024-01-01T00:10:00Z", none⟩ (by decide)

/-- C6: no cleaned purchase row has an absent purchase id or client id, and no
cleaned client row has an absent client id: rows missing a required identifier
are dropped by the final filters of the Cleaning Stage. -/
theorem C6_required_identifiers (rawp : List RawPurchase) (rawc : List RawClient) :
    (∀ r ∈ transform_dataframe_purchases rawp,
      r.id_achat.isSome = true ∧ r.id_client.isSome = true) ∧
    (∀ c ∈ transform_dataframe_clients rawc, c.id_client.isSome = true) := by
  constructor
  · intro r hr
    unfold transform_dataframe_purchases at hr
    have h2 := (List.mem_filter.mp hr).2
    have h1 := (List.mem_filter.mp (List.mem_filter.mp hr).1).2
    exact ⟨h2, h1⟩
  · intro c hc
    unfold transform_dataframe_clients at hc
    exact (List.mem_filter.mp hc).2

/-- C6 witness: a concrete cleaned purchase row and client row have their
required identifiers present. -/
theorem C6_required_identifiers_witness :
    ((⟨some 1, some 1, some ⟨2024, 3, 5⟩, some (4999/100 : ℚ), "Mouse"⟩ : CleanPurchase).id_achat.isSome = true ∧
      (⟨some 1, some 1, some ⟨2024, 3, 5⟩, some (4999/100 : ℚ), "Mouse"⟩ : CleanPurchase).id_client.isSome = true) ∧
    (⟨some 1, "Alice", "a@x.com", none, "France"⟩ : CleanClient).id_client.isSome = true := by
  constructor
  · exact (C6_required_identifiers
      [⟨some "1", some "1", some "2024-03-05", some "49.99", some "Mouse"⟩]
      []).1 ⟨some 1, some 1, some ⟨2024, 3, 5⟩, some (4999/100 : ℚ), "Mouse"⟩ (by decide)
  · exact (C6_required_identifiers []
      [⟨some "1", some " Alice ", some "A@x.com", none, some " France "⟩]).2
      ⟨some 1, "Alice", "a@x.com", none, "France"⟩ (by decide)

/-- C7: no two rows of a cleaned table (purchases or clients) are field-wise
identical, for every raw extract. -/
theorem C7_dedup_invariant (rawp : List RawPurchase) (rawc : List RawClient) :
    (transform_dataframe_purchases rawp).Nodup ∧
    (transform_dataframe_clients rawc).Nodup :=
  ⟨nodup_transform_purchases rawp, nodup_transform_clients rawc⟩

/-- Number of `ingest_metadata` documents carrying a given collection name. -/
def countMetaName (meta : List MetaDoc) (name : String) : Nat :=
  (meta.filter (fun m => m.collection = name)).length

theorem updateOneUpsert_filter (meta : List MetaDoc) (name : String) (doc : MetaDoc)
    (hdoc : doc.collection = name) (h : countMetaName meta name ≤ 1) :
    (updateOneUpsert meta name doc).filter (fun m => m.collection = name) = [doc] := by
  induction meta with
  | nil =>
      unfold updateOneUpsert
      simp [hdoc]
  | cons m rest ih =>
      by_cases hm : m.collection = name
      · rw [updateOneUpsert, if_pos hm]
        have hrest : rest.filter (fun x => x.collection = name) = [] := by
          unfold countMetaName at h
          rw [List.filter_cons_of_pos (by simpa using hm)] at h
          simp only [List.length_cons] at h
          have h0 : (rest.filter (fun x => decide (x.collection = name))).length = 0 := by omega
          simpa using List.eq_nil_of_length_eq_zero h0
        rw [List.filter_cons_of_pos (by simpa using hdoc)]
        simpa using hrest
      · rw [updateOneUpsert, if_neg hm]
        rw [List.filter_cons_of_neg (by simpa using hm)]
        apply ih
        unfold countMetaName at h ⊢
        rwa [List.filter_cons_of_neg (by simpa using hm)] at h

theorem write_colls (df : List Doc) (name : String) (lm : Option String)
    (now : String) (st : Store) :
    (write_df_to_mongo df name lm now st).colls name = df := by
  unfold write_df_to_mongo
  simp only [if_pos rfl]
  cases df <;> simp

/-- C3: publication fully replaces the previously published rows of a table
name (leaving zero rows when the new table is empty), so after two
publications exactly the second content is readable; and each publication
leaves exactly one IngestMetadata record for the name, carrying the write
instant as `ingest_time` and the caller-supplied source timestamp as
`source_last_modified`. -/
theorem C3_publish_full_replace (st : Store) (t1 t2 : List Doc) (name : String)
    (lm1 lm2 : Option String) (n1 n2 : String)
    (hmeta : countMetaName st.ingest_metadata name ≤ 1) :
    (write_df_to_mongo t1 name lm1 n1 st).colls name = t1 ∧
    (write_df_to_mongo t2 name lm2 n2 (write_df_to_mongo t1 name lm1 n1 st)).colls name = t2 ∧
    (t2 = [] →
      (write_df_to_mongo t2 name lm2 n2 (write_df_to_mongo t1 name lm1 n1 st)).colls name = []) ∧
    countMetaName
      (write_df_to_mongo t2 name lm2 n2 (write_df_to_mongo t1 name lm1 n1 st)).ingest_metadata
      name = 1 ∧
    (∀ m ∈ (write_df_to_mongo t2 name lm2 n2
        (write_df_to_mongo t1 name lm1 n1 st)).ingest_metadata,
      m.collection = name → m.ingest_time = some n2 ∧ m.source_last_modified = lm2) := by
  have hf1 : (updateOneUpsert st.ingest_metadata name ⟨name, some n1, lm1⟩).filter
      (fun m => m.collection = name) = [⟨name, some n1, lm1⟩] :=
    updateOneUpsert_filter st.ingest_metadata name ⟨name, some n1, lm1⟩ rfl hmeta
  have hc1 : countMetaName (updateOneUpsert st.ingest_metadata name ⟨name, some n1, lm1⟩)
      name ≤ 1 := by
    unfold countMetaName
    rw [hf1]
    simp
  have hf2 : ((write_df_to_mongo t2 name lm2 n2
      (write_df_to_mongo t1 name lm1 n1 st)).ingest_metadata).filter
      (fun m => m.collection = name) = [⟨name, some n2, lm2⟩] := by
    unfold write_df_to_mongo
    exact updateOneUpsert_filter _ name ⟨name, some n2, lm2⟩ rfl hc1
  refine ⟨write_colls t1 name lm1 n1 st, write_colls t2 name lm2 n2 _, ?_, ?_, ?_⟩
  · intro h2
    rw [write_colls, h2]
  · unfold countMetaName
    rw [hf2]
    simp
  · intro m hm hcol
    have hmem : m ∈ ((write_df_to_mongo t2 name lm2 n2
        (write_df_to_mongo t1 name lm1 n1 st)).ingest_metadata).filter
        (fun x => x.collection = name) :=
      List.mem_filter.mpr ⟨hm, by simpa using hcol⟩
    rw [hf2] at hmem
    have he : m = (⟨name, some n2, lm2⟩ : MetaDoc) := by simpa using hmem
    rw [he]
    exact ⟨rfl, rfl⟩

/-- C3 witness: at concrete inputs, the second publication's rows replace the
first's, and the single metadata record carries the second write's timestamps. -/
theorem C3_publish_full_replace_witness :
    (write_df_to_mongo [[("a", "1")]] "volumes_day" (some "lm1") "t1"
      ⟨fun _ => [], []⟩).colls "volumes_day" = [[("a", "1")]] ∧
    (write_df_to_mongo [[("b", "2")]] "volumes_day" (some "lm2") "t2"
      (write_df_to_mongo [[("a", "1")]] "volumes_day" (some "lm1") "t1"
        ⟨fun _ => [], []⟩)).colls "volumes_day" = [[("b", "2")]] ∧
    countMetaName
      (write_df_to_mongo [[("b", "2")]] "volumes_day" (some "lm2") "t2"
        (write_df_to_mongo [[("a", "1")]] "volumes_day" (some "lm1") "t1"
          ⟨fun _ => [], []⟩)).ingest_metadata "volumes_day" = 1 ∧
    ((⟨"volumes_day", some "t2", some "lm2"⟩ : MetaDoc).ingest_time = some "t2" ∧
      (⟨"volumes_day", some "t2", some "lm2"⟩ : MetaDoc).source_last_modified = some "lm2") := by
  have h := C3_publish_full_replace ⟨fun _ => [], []⟩ [[("a", "1")]] [[("b", "2")]]
    "volumes_day" (some "lm1") (some "lm2") "t1" "t2" (by decide)
  exact ⟨h.1, h.2.1, h.2.2.2.1,
    h.2.2.2.2 ⟨"volumes_day", some "t2", some "lm2"⟩ (by decide) rfl⟩

theorem utcSeconds_normalizeNaive (t : PyDateTime) :
    utcSeconds (normalizeNaive t) = utcSeconds t := by
  unfold normalizeNaive utcSeconds
  cases h : t.tzMinutes <;> simp [h]

theorem get_metadata_found (meta : List MetaDoc) (name : String) (now : PyDateTime)
    (m : MetaDoc) (hfind : findOneMeta meta name = some m) :
    get_metadata meta name now = .ok
      { collection := name
        source_last_modified := m.source_last_modified
        ingest_time := m.ingest_time
        delta_source_to_ingest_seconds :=
          match (m.source_last_modified.bind fromisoformat).map normalizeNaive,
              (m.ingest_time.bind fromisoformat).map normalizeNaive with
          | some s, some i => some (utcSeconds i - utcSeconds s)
          | _, _ => none
        delta_ingest_to_now_seconds :=
          match (m.ingest_time.bind fromisoformat).map normalizeNaive with
          | some i => some (utcSeconds now - utcSeconds i)
          | none => none } := by
  unfold get_metadata
  rw [hfind]

/-- C4: for a metadata record whose timestamps are present and parsable the
resolver returns `delta_source_to_ingest` equal to ingest time minus source
time in seconds, treating timestamps without timezone information as UTC
(normalization leaves the UTC reading unchanged); the delta is absent as soon
as either timestamp is absent or unparsable; and the spec example
(source `2024-01-01T00:00:00Z`, ingest `2024-01-01T00:10:00Z`) yields exactly
600 seconds. -/
theorem C4_freshness_arithmetic (meta : List MetaDoc) (name : String)
    (now : PyDateTime) (m : MetaDoc) (hfind : findOneMeta meta name = some m) :
    (∀ t : PyDateTime, utcSeconds (normalizeNaive t) = utcSeconds t) ∧
    (∀ ss si ts ti, m.source_last_modified = some ss → m.ingest_time = some si →
      fromisoformat ss = some ts → fromisoformat si = some ti →
      ∃ info, get_metadata meta name now = .ok info ∧
        info.delta_source_to_ingest_seconds = some (utcSeconds ti - utcSeconds ts)) ∧
    ((m.source_last_modified.bind fromisoformat = none ∨
        m.ingest_time.bind fromisoformat = none) →
      ∃ info, get_metadata meta name now = .ok info ∧
        info.delta_source_to_ingest_seconds = none) ∧
    (∀ info, get_metadata
        [⟨name, some "2024-01-01T00:10:00Z", some "2024-01-01T00:00:00Z"⟩] name now =
          .ok info →
      info.delta_source_to_ingest_seconds = some 600) := by
  refine ⟨utcSeconds_normalizeNaive, ?_, ?_, ?_⟩
  · intro ss si ts ti hss hsi hts hti
    refine ⟨_, get_metadata_found meta name now m hfind, ?_⟩
    simp [hss, hsi, hts, hti, utcSeconds_normalizeNaive]
  · intro h
    refine ⟨_, get_metadata_found meta name now m hfind, ?_⟩
    rcases h with h | h
    · simp [h]
    · cases hsrc : m.source_last_modified.bind fromisoformat <;> simp [h, hsrc]
  · intro info h
    have hfind2 : findOneMeta
        [⟨name, some "2024-01-01T00:10:00Z", some "2024-01-01T00:00:00Z"⟩] name =
        some ⟨name, some "2024-01-01T00:10:00Z", some "2024-01-01T00:00:00Z"⟩ := by
      unfold findOneMeta
      exact List.find?_cons_of_pos _ (by simp)
    rw [get_metadata_found _ name now _ hfind2] at h
    injection h with h2
    rw [← h2]
    dsimp only
    decide

/-- C4 witness: at the concrete metadata record of the spec example the
resolver returns 600.0 seconds exactly. -/
theorem C4_freshness_arithmetic_witness :
    ((⟨"kpi", some "2024-01-01T00:00:00Z", some "2024-01-01T00:10:00Z",
        some 600, some 600⟩ : RefreshInfo)).delta_source_to_ingest_seconds = some 600 := by
  refine (C4_freshness_arithmetic
    [⟨"kpi", some "2024-01-01T00:10:00Z", some "2024-01-01T00:00:00Z"⟩]
    "kpi" ⟨2024, 1, 1, 0, 20, 0, some 0⟩
    ⟨"kpi", some "2024-01-01T00:10:00Z", some "2024-01-01T00:00:00Z"⟩
    (by decide)).2.2.2
    ⟨"kpi", some "2024-01-01T00:00:00Z", some "2024-01-01T00:10:00Z", some 600, some 600⟩
    (by rfl)

/-- C2: evaluation at the failing input.  A purchase whose client id matches no
client row survives the left join with an absent country (`pays = none`), but
`groupby("pays")` then drops the null-keyed group, so its amount appears in no
`ca_by_country` bucket at all — while the very same joined row still reaches
`monthly_revenue`.  The claim says the amount is kept under an absent-country
bucket; the code silently drops it. -/
theorem C2_unmatched_purchase_dropped :
    leftJoin [] [⟨some 1, some 1, some ⟨2024, 3, 5⟩, some 10, "Mouse"⟩] =
      [⟨"2024-03", some ⟨2024, 3, 5⟩, some 10, none⟩] ∧
    (compute_kpis [] [⟨some 1, some 1, some ⟨2024, 3, 5⟩, some 10, "Mouse"⟩]).ca_by_country =
      [] ∧
    (compute_kpis [] [⟨some 1, some 1, some ⟨2024, 3, 5⟩, some 10, "Mouse"⟩]).monthly_revenue =
      [⟨"2024-03", 10, some 0⟩] := by decide

theorem mem_sortKeys {x : String} {l : List String} (h : x ∈ l) : x ∈ sortKeys l := by
  unfold sortKeys
  rw [List.mem_insertionSort]
  rw [mem_pdDropDuplicates]
  exact h

theorem pdDropDupAux_map_inj {α β : Type} [DecidableEq α] [DecidableEq β]
    (f : α → β) (hf : ∀ a b, f a = f b → a = b) :
    ∀ (l : List α) (seen : List α),
      pdDropDupAux (seen.map f) (l.map f) = (pdDropDupAux seen l).map f := by
  intro l
  induction l with
  | nil => intro seen; rfl
  | cons x xs ih =>
      intro seen
      by_cases hx : x ∈ seen
      · have hfx : f x ∈ seen.map f := List.mem_map_of_mem f hx
        rw [List.map_cons, pdDropDupAux, if_pos hfx, pdDropDupAux, if_pos hx, ih]
      · have hfx : f x ∉ seen.map f := by
          intro hc
          obtain ⟨a, ha, he⟩ := List.mem_map.mp hc
          rw [hf a x he] at ha
          exact hx ha
        rw [List.map_cons, pdDropDupAux, if_neg hfx, pdDropDupAux, if_neg hx,
          List.map_cons]
        congr 1
        have h2 := ih (x :: seen)
        rw [List.map_cons] at h2
        exact h2

theorem pdDropDuplicates_map_inj {α β : Type} [DecidableEq α] [DecidableEq β]
    (f : α → β) (hf : ∀ a b, f a = f b → a = b) (l : List α) :
    pdDropDuplicates (l.map f) = (pdDropDuplicates l).map f :=
  pdDropDupAux_map_inj f hf l []

theorem embedClient_inj (a b : CleanClient) (h : embedClient a = embedClient b) :
    a = b := by
  cases a
  cases b
  simp only [embedClient, CleanClientD.mk.injEq, Option.some.injEq] at h
  simp only [CleanClient.mk.injEq]
  exact h

theorem embedPurchase_inj (a b : CleanPurchase) (h : embedPurchase a = embedPurchase b) :
    a = b := by
  cases a
  cases b
  simp only [embedPurchase, CleanPurchaseD.mk.injEq, Option.some.injEq] at h
  simp only [CleanPurchase.mk.injEq]
  exact h

theorem mem_transform_clients_dtyped {d : CleanClientD} {rows : List RawClient}
    (h : d ∈ transform_dataframe_clients_dtyped rows) :
    ∃ x ∈ rows, d = coerceClientD (isObjectCol (rows.map (fun r => r.nom)))
      (isObjectCol (rows.map (fun r => r.email)))
      (isObjectCol (rows.map (fun r => r.pays))) x := by
  unfold transform_dataframe_clients_dtyped at h
  have h1 := (List.mem_filter.mp h).1
  rw [mem_pdDropDuplicates] at h1
  obtain ⟨x, hx, he⟩ := List.mem_map.mp h1
  exact ⟨x, (List.mem_filter.mp hx).1, he.symm⟩

theorem mem_transform_purchases_dtyped {d : CleanPurchaseD} {rows : List RawPurchase}
    (h : d ∈ transform_dataframe_purchases_dtyped rows) :
    ∃ x ∈ rows, d = coercePurchaseD (isObjectCol (rows.map (fun r => r.produit))) x := by
  unfold transform_dataframe_purchases_dtyped at h
  have h1 := (List.mem_filter.mp (List.mem_filter.mp h).1).1
  rw [mem_pdDropDuplicates] at h1
  obtain ⟨x, hx, he⟩ := List.mem_map.mp h1
  exact ⟨x, (List.mem_filter.mp hx).1, he.symm⟩

/-- C10 counterexample: in a client extract whose `pays` column is entirely
empty, `read_csv` infers `float64`, the keyword string loop skips the column
(`select_dtypes(include=["object"])` excludes it), and the cleaned row keeps
an absent `pays` — not the literal string `"nan"`.  The original claim's
universal "never absent" is therefore false of the program. -/
theorem C10_all_empty_column_keeps_absent :
    transform_dataframe_clients_dtyped
        [⟨some "1", some "Alice", some "a@x.com", none, none⟩] =
      [⟨some 1, some "Alice", some "a@x.com", none, none⟩] ∧
    ¬ ((transform_dataframe_clients_dtyped
          [⟨some "1", some "Alice", some "a@x.com", none, none⟩]).map
        (fun c => c.pays) = [some "nan"]) := by decide

/-- C10 (amended): a keyword string field (`nom`/`email`/`pays`/`produit`)
whose column is object dtype — it contains at least one present cell that
does not parse as a numeral — is never absent after cleaning: a missing cell
becomes the literal string `"nan"` (lowercased for email, which leaves it
unchanged); but a keyword column that is all-empty or all-numeric is skipped
by the string loop, so its missing cells remain absent.  When every keyword
column is object dtype (the generic CSV text case) the dtype-aware cleaning
coincides with the plain string cleaning, and the `"nan"` value then behaves
like any other string: a client whose `pays` is `"nan"` feeds an ordinary
`"nan"` bucket of `ca_by_country` through the join, and a row whose email
cell was missing is field-wise identical (hence a duplicate) to one whose
email cell holds the literal string `"nan"`. -/
theorem C10_nan_strings_amended
    (clients : List CleanClient) (achats : List CleanPurchase)
    (c : CleanClient) (a : CleanPurchase) (v : ℚ)
    (hc : c ∈ clients) (ha : a ∈ achats)
    (hav : a.id_client = some v) (hcv : c.id_client = some v)
    (hpays : c.pays = "nan") :
    (∀ (rc : RawClient) (o1 o2 o3 : Bool),
      (rc.nom = none →
        (coerceClientD o1 o2 o3 rc).nom = if o1 then some "nan" else none) ∧
      (rc.email = none →
        (coerceClientD o1 o2 o3 rc).email = if o2 then some "nan" else none) ∧
      (rc.pays = none →
        (coerceClientD o1 o2 o3 rc).pays = if o3 then some "nan" else none)) ∧
    (∀ (rp : RawPurchase) (o : Bool), rp.produit = none →
      (coercePurchaseD o rp).produit = if o then some "nan" else none) ∧
    (∀ rows : List RawClient,
      (isObjectCol (rows.map (fun r => r.nom)) = true →
        ∀ d ∈ transform_dataframe_clients_dtyped rows, d.nom.isSome = true) ∧
      (isObjectCol (rows.map (fun r => r.email)) = true →
        ∀ d ∈ transform_dataframe_clients_dtyped rows, d.email.isSome = true) ∧
      (isObjectCol (rows.map (fun r => r.pays)) = true →
        ∀ d ∈ transform_dataframe_clients_dtyped rows, d.pays.isSome = true)) ∧
    (∀ rows : List RawPurchase,
      isObjectCol (rows.map (fun r => r.produit)) = true →
        ∀ d ∈ transform_dataframe_purchases_dtyped rows, d.produit.isSome = true) ∧
    (∀ rows : List RawClient, isObjectCol (rows.map (fun r => r.pays)) = false →
      ∀ d ∈ transform_dataframe_clients_dtyped rows, ∃ x ∈ rows, d.pays = x.pays) ∧
    (∀ rows : List RawPurchase, isObjectCol (rows.map (fun r => r.produit)) = false →
      ∀ d ∈ transform_dataframe_purchases_dtyped rows, ∃ x ∈ rows, d.produit = x.produit) ∧
    (∀ rows : List RawClient,
      isObjectCol (rows.map (fun r => r.nom)) = true →
      isObjectCol (rows.map (fun r => r.email)) = true →
      isObjectCol (rows.map (fun r => r.pays)) = true →
      transform_dataframe_clients_dtyped rows =
        (transform_dataframe_clients rows).map embedClient) ∧
    (∀ rows : List RawPurchase,
      isObjectCol (rows.map (fun r => r.produit)) = true →
      transform_dataframe_purchases_dtyped rows =
        (transform_dataframe_purchases rows).map embedPurchase) ∧
    ("nan" ∈ countryKeys (leftJoin clients achats) ∧
      ("nan", caOfCountry (leftJoin clients achats) "nan") ∈
        caByCountryTable (leftJoin clients achats)) ∧
    (∀ r1 r2 : RawClient, r1.id_client = r2.id_client → r1.nom = r2.nom →
      r1.email = none → r2.email = some "nan" →
      r1.date_inscription = r2.date_inscription → r1.pays = r2.pays →
      coerceClient r1 = coerceClient r2) := by
  refine ⟨?_, ?_, ?_, ?_, ?_, ?_, ?_, ?_, ?_, ?_⟩
  · intro rc o1 o2 o3
    refine ⟨?_, ?_, ?_⟩
    · intro h
      cases o1 <;> simp [coerceClientD, strCellD, strCell, h]
    · intro h
      cases o2 with
      | false => simp [coerceClientD, emailCellD, h]
      | true =>
          simp only [coerceClientD, emailCellD, if_pos, h]
          decide
    · intro h
      cases o3 <;> simp [coerceClientD, strCellD, strCell, h]
  · intro rp o h
    cases o <;> simp [coercePurchaseD, strCellD, strCell, h]
  · intro rows
    refine ⟨?_, ?_, ?_⟩
    · intro hobj d hd
      obtain ⟨x, _, he⟩ := mem_transform_clients_dtyped hd
      rw [he]
      simp [coerceClientD, strCellD, hobj]
    · intro hobj d hd
      obtain ⟨x, _, he⟩ := mem_transform_clients_dtyped hd
      rw [he]
      simp [coerceClientD, emailCellD, hobj]
    · intro hobj d hd
      obtain ⟨x, _, he⟩ := mem_transform_clients_dtyped hd
      rw [he]
      simp [coerceClientD, strCellD, hobj]
  · intro rows hobj d hd
    obtain ⟨x, _, he⟩ := mem_transform_purchases_dtyped hd
    rw [he]
    simp [coercePurchaseD, strCellD, hobj]
  · intro rows hobj d hd
    obtain ⟨x, hx, he⟩ := mem_transform_clients_dtyped hd
    refine ⟨x, hx, ?_⟩
    rw [he]
    simp [coerceClientD, strCellD, hobj]
  · intro rows hobj d hd
    obtain ⟨x, hx, he⟩ := mem_transform_purchases_dtyped hd
    refine ⟨x, hx, ?_⟩
    rw [he]
    simp [coercePurchaseD, strCellD, hobj]
  · intro rows h1 h2 h3
    unfold transform_dataframe_clients_dtyped transform_dataframe_clients
    dsimp only
    rw [h1, h2, h3]
    have hco : (rows.filter (fun r => ! r.allNa)).map (coerceClientD true true true) =
        ((rows.filter (fun r => ! r.allNa)).map coerceClient).map embedClient := by
      rw [List.map_map]
      rfl
    rw [hco, pdDropDuplicates_map_inj embedClient embedClient_inj, List.filter_map]
    rfl
  · intro rows h1
    unfold transform_dataframe_purchases_dtyped transform_dataframe_purchases
    dsimp only
    rw [h1]
    have hco : (rows.filter (fun r => ! r.allNa)).map (coercePurchaseD true) =
        ((rows.filter (fun r => ! r.allNa)).map coercePurchase).map embedPurchase := by
      rw [List.map_map]
      rfl
    rw [hco, pdDropDuplicates_map_inj embedPurchase embedPurchase_inj,
      List.filter_map, List.filter_map]
    rfl
  · have hmatch : c ∈ matchClients clients a := by
      unfold matchClients
      refine List.mem_filter.mpr ⟨hc, ?_⟩
      rw [hav]
      simp [hcv]
    have hrow : (⟨monthOf a, a.date_achat, a.montant, some c.pays⟩ : JoinedRow) ∈
        joinOne clients a := by
      unfold joinOne
      cases hms : matchClients clients a with
      | nil => rw [hms] at hmatch; simp at hmatch
      | cons m0 rest =>
          rw [hms] at hmatch
          exact List.mem_map_of_mem _ hmatch
    have hj : (⟨monthOf a, a.date_achat, a.montant, some c.pays⟩ : JoinedRow) ∈
        leftJoin clients achats := by
      unfold leftJoin
      exact List.mem_flatMap.mpr ⟨a, ha, hrow⟩
    have hkey : "nan" ∈ countryKeys (leftJoin clients achats) := by
      unfold countryKeys
      apply mem_sortKeys
      exact List.mem_filterMap.mpr ⟨⟨monthOf a, a.date_achat, a.montant, some c.pays⟩,
        hj, by rw [hpays]⟩
    exact ⟨hkey, List.mem_map_of_mem _ hkey⟩
  · intro r1 r2 hid hnom hm1 hm2 hdate hp
    simp only [coerceClient, hid, hnom, hm1, hm2, hdate, hp]
    simp only [CleanClient.mk.injEq, and_true, true_and]
    decide

/-- C10 witness: at concrete inputs, a missing email under an object-dtype
column becomes `some "nan"` while a non-object `pays` column keeps the cell
absent; at an object-dtype extract the dtype-aware cleaning equals the plain
one; and the `"nan"` country feeds an ordinary bucket and makes the
missing-email row a duplicate of a literal-`"nan"` row. -/
theorem C10_nan_strings_amended_witness :
    (coerceClientD true true true ⟨some "1", some "Bob", none, none, none⟩).email =
      some "nan" ∧
    (coerceClientD false false false ⟨some "1", some "Bob", none, none, none⟩).pays =
      none ∧
    transform_dataframe_clients_dtyped
        [⟨some "1", some " Alice ", some "A@x.com", none, some " France "⟩] =
      (transform_dataframe_clients
        [⟨some "1", some " Alice ", some "A@x.com", none, some " France "⟩]).map
        embedClient ∧
    "nan" ∈ countryKeys (leftJoin [⟨some 1, "Alice", "nan", none, "nan"⟩]
      [⟨some 1, some 1, some ⟨2024, 3, 5⟩, some 10, "Mouse"⟩]) ∧
    coerceClient ⟨some "2", some "Bob", none, none, some "France"⟩ =
      coerceClient ⟨some "2", some "Bob", some "nan", none, some "France"⟩ := by
  have h := C10_nan_strings_amended [⟨some 1, "Alice", "nan", none, "nan"⟩]
    [⟨some 1, some 1, some ⟨2024, 3, 5⟩, some 10, "Mouse"⟩]
    ⟨some 1, "Alice", "nan", none, "nan"⟩
    ⟨some 1, some 1, some ⟨2024, 3, 5⟩, some 10, "Mouse"⟩ 1
    (by decide) (by decide) rfl rfl rfl
  refine ⟨?_, ?_, ?_, ?_, ?_⟩
  · exact ((h.1 ⟨some "1", some "Bob", none, none, none⟩ true true true).2.1 rfl).trans
      (by decide)
  · exact ((h.1 ⟨some "1", some "Bob", none, none, none⟩ false false false).2.2 rfl).trans
      (by decide)
  · exact h.2.2.2.2.2.2.1
      [⟨some "1", some " Alice ", some "A@x.com", none, some " France "⟩]
      (by decide) (by decide) (by decide)
  · exact h.2.2.2.2.2.2.2.2.1.1
  · exact h.2.2.2.2.2.2.2.2.2
      ⟨some "2", some "Bob", none, none, some "France"⟩
      ⟨some "2", some "Bob", some "nan", none, some "France"⟩ rfl rfl rfl rfl rfl rfl

theorem leftJoin_cons (clients : List CleanClient) (a : CleanPurchase)
    (as : List CleanPurchase) :
    leftJoin clients (a :: as) = joinOne clients a ++ leftJoin clients as := by
  unfold leftJoin
  rw [List.flatMap_cons]

theorem sumMontant_append (j1 j2 : List JoinedRow) :
    sumMontant (j1 ++ j2) = sumMontant j1 + sumMontant j2 := by
  unfold sumMontant
  rw [List.map_append, List.sum_append]

theorem revenueOfMonth_append (j1 j2 : List JoinedRow) (m : String) :
    revenueOfMonth (j1 ++ j2) m = revenueOfMonth j1 m + revenueOfMonth j2 m := by
  unfold revenueOfMonth
  rw [List.filter_append, sumMontant_append]

theorem caOfCountry_append (j1 j2 : List JoinedRow) (p : String) :
    caOfCountry (j1 ++ j2) p = caOfCountry j1 p + caOfCountry j2 p := by
  unfold caOfCountry
  rw [List.filter_append, sumMontant_append]

theorem joinOne_montant (clients : List CleanClient) (a : CleanPurchase) :
    ∀ r ∈ joinOne clients a, r.montant = a.montant := by
  intro r hr
  unfold joinOne at hr
  cases hms : matchClients clients a with
  | nil =>
      rw [hms] at hr
      have he : r = ⟨monthOf a, a.date_achat, a.montant, none⟩ := by simpa using hr
      rw [he]
  | cons m0 rest =>
      rw [hms] at hr
      obtain ⟨c, _, he⟩ := List.mem_map.mp hr
      rw [← he]

theorem sumMontant_all_none (j : List JoinedRow) (h : ∀ r ∈ j, r.montant = none) :
    sumMontant j = 0 := by
  unfold sumMontant
  apply List.sum_eq_zero
  intro x hx
  obtain ⟨r, hr, he⟩ := List.mem_map.mp hx
  rw [← he, h r hr]
  rfl

theorem revenueOfMonth_all_none (j : List JoinedRow) (m : String)
    (h : ∀ r ∈ j, r.montant = none) : revenueOfMonth j m = 0 :=
  sumMontant_all_none _ (fun r hr => h r (List.mem_filter.mp hr).1)

theorem caOfCountry_all_none (j : List JoinedRow) (p : String)
    (h : ∀ r ∈ j, r.montant = none) : caOfCountry j p = 0 :=
  sumMontant_all_none _ (fun r hr => h r (List.mem_filter.mp hr).1)

theorem mem_sortDayKeys {d : Date} {l : List Date} (h : d ∈ l) : d ∈ sortDayKeys l := by
  unfold sortDayKeys
  rw [List.mem_insertionSort, mem_pdDropDuplicates]
  exact h

/-- C9: a purchase row with a valid date and ids but a non-numeric amount is
retained by the Cleaning Stage with `montant` absent; in aggregation the row
contributes nothing to any revenue sum (`monthly_revenue` month groups and
`ca_by_country` country groups are unchanged by its presence) but bumps the
row counts of its month and day groups, which appear in `volumes_month` and
`volumes_day`. -/
theorem C9_nonnumeric_amount (raw : RawPurchase) (s : String)
    (hs : raw.montant = some s) (hnum : parseNum s = none)
    (hida : (toNumericCell raw.id_achat).isSome = true)
    (hidc : (toNumericCell raw.id_client).isSome = true) :
    (transform_dataframe_purchases [raw] = [coercePurchase raw] ∧
      (coercePurchase raw).montant = none) ∧
    (∀ clients achats m,
      revenueOfMonth (leftJoin clients (coercePurchase raw :: achats)) m =
        revenueOfMonth (leftJoin clients achats) m) ∧
    (∀ clients achats p,
      caOfCountry (leftJoin clients (coercePurchase raw :: achats)) p =
        caOfCountry (leftJoin clients achats) p) ∧
    (∀ achats,
      countMonth (coercePurchase raw :: achats) (monthOf (coercePurchase raw)) =
        countMonth achats (monthOf (coercePurchase raw)) + 1 ∧
      (monthOf (coercePurchase raw),
          countMonth (coercePurchase raw :: achats) (monthOf (coercePurchase raw))) ∈
        volumesMonthTable (coercePurchase raw :: achats)) ∧
    (∀ achats d, (coercePurchase raw).date_achat = some d →
      countDay (coercePurchase raw :: achats) d = countDay achats d + 1 ∧
      (d, countDay (coercePurchase raw :: achats) d) ∈
        volumesDayTable (coercePurchase raw :: achats)) := by
  have hmont : (coercePurchase raw).montant = none := by
    simp [coercePurchase, toNumericCell, hs, hnum]
  refine ⟨⟨?_, hmont⟩, ?_, ?_, ?_, ?_⟩
  · unfold transform_dataframe_purchases
    have hna : raw.allNa = false := by
      unfold RawPurchase.allNa
      rw [hs]
      simp
    rw [List.filter_cons_of_pos (by rw [hna]; rfl)]
    simp only [List.filter_nil, List.map_cons, List.map_nil]
    rw [pdDropDuplicates_eq_self _ (by simp)]
    rw [List.filter_cons_of_pos (by simpa [coercePurchase] using hidc)]
    simp only [List.filter_nil]
    rw [List.filter_cons_of_pos (by simpa [coercePurchase] using hida)]
    simp
  · intro clients achats m
    rw [leftJoin_cons, revenueOfMonth_append,
      revenueOfMonth_all_none (joinOne clients (coercePurchase raw)) m
        (fun r hr => by rw [joinOne_montant clients _ r hr, hmont]),
      zero_add]
  · intro clients achats p
    rw [leftJoin_cons, caOfCountry_append,
      caOfCountry_all_none (joinOne clients (coercePurchase raw)) p
        (fun r hr => by rw [joinOne_montant clients _ r hr, hmont]),
      zero_add]
  · intro achats
    constructor
    · unfold countMonth
      rw [List.filter_cons_of_pos (by simp)]
      rfl
    · apply List.mem_map_of_mem
      apply mem_sortKeys
      rw [List.map_cons]
      exact List.mem_cons_self _ _
  · intro achats d hd
    constructor
    · unfold countDay
      rw [List.filter_cons_of_pos (by simp [hd])]
      rfl
    · apply List.mem_map_of_mem
      apply mem_sortDayKeys
      exact List.mem_filterMap.mpr ⟨coercePurchase raw, List.mem_cons_self _ _, hd⟩

/-- C9 witness: the concrete `"N/A"`-amount purchase is kept with an absent
amount, leaves the month revenue unchanged, and is counted in the month and
day volumes. -/
theorem C9_nonnumeric_amount_witness :
    (transform_dataframe_purchases
        [⟨some "7", some "1", some "2024-03-05", some "N/A", some "Mouse"⟩] =
      [coercePurchase ⟨some "7", some "1", some "2024-03-05", some "N/A", some "Mouse"⟩]) ∧
    (coercePurchase ⟨some "7", some "1", some "2024-03-05", some "N/A", some "Mouse"⟩).montant =
      none ∧
    revenueOfMonth (leftJoin []
        [coercePurchase ⟨some "7", some "1", some "2024-03-05", some "N/A", some "Mouse"⟩])
      "2024-03" = revenueOfMonth (leftJoin [] []) "2024-03" ∧
    countMonth [coercePurchase ⟨some "7", some "1", some "2024-03-05", some "N/A", some "Mouse"⟩]
        (monthOf (coercePurchase ⟨some "7", some "1", some "2024-03-05", some "N/A", some "Mouse"⟩)) =
      countMonth []
        (monthOf (coercePurchase ⟨some "7", some "1", some "2024-03-05", some "N/A", some "Mouse"⟩)) + 1 := by
  have h := C9_nonnumeric_amount
    ⟨some "7", some "1", some "2024-03-05", some "N/A", some "Mouse"⟩ "N/A"
    rfl (by decide) (by decide) (by decide)
  exact ⟨h.1.1, h.1.2, h.2.1 [] [] "2024-03", (h.2.2.2.1 []).1⟩

theorem mem_transform_purchases_ids {r : CleanPurchase} {rawp : List RawPurchase}
    (h : r ∈ transform_dataframe_purchases rawp) :
    r.id_client.isSome = true ∧ r.id_achat.isSome = true := by
  unfold transform_dataframe_purchases at h
  exact ⟨(List.mem_filter.mp (List.mem_filter.mp h).1).2, (List.mem_filter.mp h).2⟩

theorem mem_transform_clients_id {c : CleanClient} {rawc : List RawClient}
    (h : c ∈ transform_dataframe_clients rawc) : c.id_client.isSome = true := by
  unfold transform_dataframe_clients at h
  exact (List.mem_filter.mp h).2

theorem filter_allNa_clean_purchases (l : List CleanPurchase) :
    l.filter (fun r => ! r.allNa) = l := by
  apply List.filter_eq_self.mpr
  intro r _
  simp [CleanPurchase.allNa]

theorem filter_allNa_clean_clients (l : List CleanClient) :
    l.filter (fun r => ! r.allNa) = l := by
  apply List.filter_eq_self.mpr
  intro r _
  simp [CleanClient.allNa]

/-- C8: the Cleaning Stage is idempotent — applying `transform_dataframe` to
its own output (for either entity kind) returns the output unchanged: no row
is all-null, re-stripping and re-lowercasing fix every string field, the
table is already duplicate-free, and every row already has its required
identifiers. -/
theorem C8_cleaning_idempotent (rawp : List RawPurchase) (rawc : List RawClient) :
    transform_dataframe_purchases_again (transform_dataframe_purchases rawp) =
      transform_dataframe_purchases rawp ∧
    transform_dataframe_clients_again (transform_dataframe_clients rawc) =
      transform_dataframe_clients rawc := by
  constructor
  · unfold transform_dataframe_purchases_again
    dsimp only
    rw [filter_allNa_clean_purchases]
    have hmap : (transform_dataframe_purchases rawp).map recoercePurchase =
        transform_dataframe_purchases rawp := by
      have := List.map_congr_left (l := transform_dataframe_purchases rawp)
        (f := recoercePurchase) (g := fun r => r) ?_
      · simpa using this
      · intro r hr
        obtain ⟨x, _, he⟩ := mem_transform_purchases hr
        rw [he, recoercePurchase_coerce]
    rw [hmap]
    rw [pdDropDuplicates_eq_self _ (nodup_transform_purchases rawp)]
    rw [List.filter_eq_self.mpr (fun r hr => (mem_transform_purchases_ids hr).1)]
    rw [List.filter_eq_self.mpr (fun r hr => (mem_transform_purchases_ids hr).2)]
  · unfold transform_dataframe_clients_again
    dsimp only
    rw [filter_allNa_clean_clients]
    have hmap : (transform_dataframe_clients rawc).map recoerceClient =
        transform_dataframe_clients rawc := by
      have := List.map_congr_left (l := transform_dataframe_clients rawc)
        (f := recoerceClient) (g := fun c => c) ?_
      · simpa using this
      · intro c hc
        obtain ⟨x, _, he⟩ := mem_transform_clients hc
        rw [he, recoerceClient_coerce]
    rw [hmap]
    rw [pdDropDuplicates_eq_self _ (nodup_transform_clients rawc)]
    rw [List.filter_eq_self.mpr (fun c hc => mem_transform_clients_id hc)]

theorem zip_map_fst_fst (rows : List (String × ℚ)) :
    ∀ prevs : List (Option ℚ), rows.length ≤ prevs.length →
      (rows.zip prevs).map (fun p => p.1.1) = rows.map Prod.fst := by
  induction rows with
  | nil => intro prevs _; rfl
  | cons r rs ih =>
      intro prevs h
      cases prevs with
      | nil => simp at h
      | cons q qs =>
          simp only [List.zip_cons_cons, List.map_cons]
          rw [ih qs (by simpa using h)]

theorem addPct_map_month (rows : List (String × ℚ)) :
    (addPct rows).map (fun r => r.month) = rows.map Prod.fst := by
  unfold addPct
  rw [List.map_map]
  exact zip_map_fst_fst rows _ (by simp)

theorem addPct_length (rows : List (String × ℚ)) :
    (addPct rows).length = rows.length := by
  simp [addPct]

theorem addPct_get_revenue (rows : List (String × ℚ)) (i : Nat)
    (h : i < (addPct rows).length) (h2 : i < rows.length) :
    ((addPct rows).get ⟨i, h⟩).revenue = (rows.get ⟨i, h2⟩).2 := by
  simp [addPct, List.get_eq_getElem, List.getElem_map, List.getElem_zip]

theorem addPct_get_pct_succ (rows : List (String × ℚ)) (i : Nat)
    (h : i + 1 < (addPct rows).length) (h2 : i + 1 < rows.length) :
    ((addPct rows).get ⟨i + 1, h⟩).pct_change =
      pctChange (rows.get ⟨i, Nat.lt_of_succ_lt h2⟩).2 (rows.get ⟨i + 1, h2⟩).2 := by
  simp [addPct, List.get_eq_getElem, List.getElem_map, List.getElem_zip,
    List.getElem_cons_succ, pctCell]

theorem addPct_head (rows : List (String × ℚ)) (r0 : MRRow) (rest : List MRRow)
    (h : addPct rows = r0 :: rest) : r0.pct_change = some 0 := by
  cases rows with
  | nil => simp [addPct] at h
  | cons p ps =>
      unfold addPct at h
      rw [List.map_cons, List.zip_cons_cons, List.map_cons] at h
      have he := (List.cons.injEq _ _ _ _).mp h
      rw [← he.1]
      rfl

theorem monthlyRevenueTable_map_month (j : List JoinedRow) :
    (monthlyRevenueTable j).map (fun r => r.month) =
      sortKeys (j.map (fun r => r.month)) := by
  unfold monthlyRevenueTable
  rw [addPct_map_month, List.map_map]
  exact List.map_id _

theorem charListLe_total : ∀ l1 l2 : List Char,
    charListLe l1 l2 = true ∨ charListLe l2 l1 = true := by
  intro l1
  induction l1 with
  | nil => intro l2; left; rfl
  | cons a as ih =>
      intro l2
      cases l2 with
      | nil => right; rfl
      | cons b bs =>
          by_cases hab : a.toNat < b.toNat
          · left; simp [charListLe, hab]
          · by_cases hba : b.toNat < a.toNat
            · right; simp [charListLe, hba]
            · rcases ih bs with h | h
              · left; simp [charListLe, hab, hba, h]
              · right; simp [charListLe, hab, hba, h]

theorem charListLe_trans : ∀ l1 l2 l3 : List Char,
    charListLe l1 l2 = true → charListLe l2 l3 = true → charListLe l1 l3 = true := by
  intro l1
  induction l1 with
  | nil => intro l2 l3 _ _; rfl
  | cons a as ih =>
      intro l2 l3 h12 h23
      cases l2 with
      | nil => simp [charListLe] at h12
      | cons b bs =>
          cases l3 with
          | nil => simp [charListLe] at h23
          | cons c cs =>
              unfold charListLe at h12 h23 ⊢
              by_cases hab : a.toNat < b.toNat
              · rw [if_pos hab] at h12
                by_cases hbc : b.toNat < c.toNat
                · rw [if_pos (by omega : a.toNat < c.toNat)]
                · rw [if_neg hbc] at h23
                  by_cases hcb : c.toNat < b.toNat
                  · rw [if_pos hcb] at h23
                    exact absurd h23 (by simp)
                  · rw [if_pos (by omega : a.toNat < c.toNat)]
              · rw [if_neg hab] at h12
                by_cases hba : b.toNat < a.toNat
                · rw [if_pos hba] at h12
                  exact absurd h12 (by simp)
                · rw [if_neg hba] at h12
                  by_cases hbc : b.toNat < c.toNat
                  · rw [if_pos (by omega : a.toNat < c.toNat)]
                  · rw [if_neg hbc] at h23
                    by_cases hcb : c.toNat < b.toNat
                    · rw [if_pos hcb] at h23
                      exact absurd h23 (by simp)
                    · rw [if_neg hcb] at h23
                      rw [if_neg (by omega : ¬ a.toNat < c.toNat),
                        if_neg (by omega : ¬ c.toNat < a.toNat)]
                      exact ih bs cs h12 h23

instance : IsTotal String (fun a b => strLe a b = true) :=
  ⟨fun a b => charListLe_total a.data b.data⟩

instance : IsTrans String (fun a b => strLe a b = true) :=
  ⟨fun a b c => charListLe_trans a.data b.data c.data⟩

theorem sorted_sortKeys (l : List String) :
    List.Sorted (fun a b : String => strLe a b = true) (sortKeys l) :=
  List.sorted_insertionSort _ _

theorem addPct_pct_formula (rows : List (String × ℚ)) (i : Nat)
    (hi : i + 1 < (addPct rows).length)
    (hne : ((addPct rows).get ⟨i, Nat.lt_of_succ_lt hi⟩).revenue ≠ 0) :
    ((addPct rows).get ⟨i + 1, hi⟩).pct_change =
      some ((((addPct rows).get ⟨i + 1, hi⟩).revenue -
          ((addPct rows).get ⟨i, Nat.lt_of_succ_lt hi⟩).revenue) /
        ((addPct rows).get ⟨i, Nat.lt_of_succ_lt hi⟩).revenue) := by
  have h2 : i + 1 < rows.length := by rw [addPct_length] at hi; exact hi
  have hp := addPct_get_pct_succ rows i hi h2
  have hr1 := addPct_get_revenue rows (i + 1) hi h2
  have hr0 := addPct_get_revenue rows i (Nat.lt_of_succ_lt hi) (Nat.lt_of_succ_lt h2)
  rw [hp, hr1, hr0]
  rw [hr0] at hne
  unfold pctChange
  rw [if_neg hne]

/-- C1 (amended): for every pair of cleaned tables, `monthly_revenue` is
sorted by period string ascending, the first row's `pct_change` is `0` (not
absent), and each later row's `pct_change` is the fraction
`(curr - prev)/prev` with respect to the immediately preceding period's
revenue (when that revenue is non-zero) — without the `* 100` factor the
original claim states. -/
theorem C1_monthly_revenue_order_and_growth (clients : List CleanClient)
    (achats : List CleanPurchase) :
    List.Sorted (fun a b : String => strLe a b = true)
      (((compute_kpis clients achats).monthly_revenue).map (fun r => r.month)) ∧
    (∀ r0 rest, (compute_kpis clients achats).monthly_revenue = r0 :: rest →
      r0.pct_change = some 0) ∧
    (∀ i, ∀ hi : i + 1 < ((compute_kpis clients achats).monthly_revenue).length,
      (((compute_kpis clients achats).monthly_revenue).get
          ⟨i, Nat.lt_of_succ_lt hi⟩).revenue ≠ 0 →
      (((compute_kpis clients achats).monthly_revenue).get ⟨i + 1, hi⟩).pct_change =
        some (((((compute_kpis clients achats).monthly_revenue).get ⟨i + 1, hi⟩).revenue -
              (((compute_kpis clients achats).monthly_revenue).get
                ⟨i, Nat.lt_of_succ_lt hi⟩).revenue) /
            (((compute_kpis clients achats).monthly_revenue).get
              ⟨i, Nat.lt_of_succ_lt hi⟩).revenue)) := by
  have hmr : (compute_kpis clients achats).monthly_revenue =
      monthlyRevenueTable (leftJoin clients achats) := rfl
  refine ⟨?_, ?_, ?_⟩
  · rw [hmr, monthlyRevenueTable_map_month]
    exact sorted_sortKeys _
  · intro r0 rest h
    rw [hmr] at h
    exact addPct_head _ r0 rest h
  · intro i hi hne
    have hi2 : i + 1 < (addPct ((sortKeys ((leftJoin clients achats).map
        (fun r : JoinedRow => r.month))).map
        (fun m => (m, revenueOfMonth (leftJoin clients achats) m)))).length := hi
    have hne2 : ((addPct ((sortKeys ((leftJoin clients achats).map
        (fun r : JoinedRow => r.month))).map
        (fun m => (m, revenueOfMonth (leftJoin clients achats) m)))).get
        ⟨i, Nat.lt_of_succ_lt hi2⟩).revenue ≠ 0 := hne
    exact addPct_pct_formula _ i hi2 hne2

/-- C1 counterexample: at a concrete two-month input with revenues 2 and 3,
the second row's `pct_change` is the fraction `1/2`; the claim's formula
`(curr - prev)/prev * 100` would give `50`, so the claim as stated is false. -/
theorem C1_pct_change_not_percent :
    ((compute_kpis [] [⟨some 1, some 1, some ⟨2024, 1, 5⟩, some 2, "a"⟩,
          ⟨some 2, some 1, some ⟨2024, 2, 5⟩, some 3, "a"⟩]).monthly_revenue).map
        (fun r => (r.month, r.revenue, r.pct_change)) =
      [("2024-01", 2, some 0), ("2024-02", 3, some (1/2))] ∧
    ¬ (((compute_kpis [] [⟨some 1, some 1, some ⟨2024, 1, 5⟩, some 2, "a"⟩,
          ⟨some 2, some 1, some ⟨2024, 2, 5⟩, some 3, "a"⟩]).monthly_revenue).map
          (fun r => r.pct_change) =
        [some 0, some (((3 : ℚ) - 2) / 2 * 100)]) := by decide

/-- C1 witness: the amended growth formula evaluated at the concrete
two-month input gives `pct_change = 1/2` for the second row. -/
theorem C1_monthly_revenue_order_and_growth_witness :
    (((compute_kpis [] [⟨some 1, some 1, some ⟨2024, 1, 5⟩, some 2, "a"⟩,
          ⟨some 2, some 1, some ⟨2024, 2, 5⟩, some 3, "a"⟩]).monthly_revenue).get
        ⟨1, by decide⟩).pct_change = some (1/2) := by
  have h := (C1_monthly_revenue_order_and_growth []
    [⟨some 1, some 1, some ⟨2024, 1, 5⟩, some 2, "a"⟩,
      ⟨some 2, some 1, some ⟨2024, 2, 5⟩, some 3, "a"⟩]).2.2 0 (by decide) (by decide)
  exact h.trans (by decide)

end Elt
